import Mathlib

/-!
Shallow embedding of the codeforces reminder bot (src/bot.py) in Lean 4.

Modelling conventions, fixed once for the whole file:
* UTC instants and durations are whole seconds, modelled as `Int`
  (every comparison in the source compares `datetime`/`timedelta`
  values that are exact to the second).
* The APScheduler job store is the list of pending date jobs, in the
  order they were added; `scheduler.get_job` is a lookup by job id and
  `scheduler.add_job` appends (no job fires between the calls we study).
* The Telegram transport is an environment `Int → Option String`
  mapping a chat id to `none` (send succeeds) or `some msg`
  (send raises an exception whose `str(e)` is `msg`).
* The standard `json` library is external to the repository; it is
  modelled by its contract, `json.dump`/`json.load` being mutually
  inverse between Python values and JSON documents.  `JValue` is the
  document domain; for the byte-level claim about torn writes the file
  is a `String` and the serializer for integer lists is spelled out.
* Python `set` values are lists without duplicates; `set(xs)` is
  `List.dedup`, `discard` removes the element, `add` appends a fresh
  element.
-/

set_option maxHeartbeats 1000000

/-- Upcoming contest as returned by the Codeforces API
(src/bot.py uses the fields `id`, `name`, `startTimeSeconds`,
`durationSeconds`). -/
structure Contest where
  id : Int
  name : String
  startTimeSeconds : Int
  durationSeconds : Int
  deriving Repr, DecidableEq

/-- `REMINDER_INTERVALS` from src/bot.py lines 23-27, in insertion
order, durations in seconds. -/
def REMINDER_INTERVALS : List (String × Int) :=
  [("24h", 24 * 60 * 60), ("1h", 60 * 60), ("15m", 15 * 60)]

/-- A pending APScheduler date job created by
`manage_and_schedule_reminders`: its id, its run date, and the
`args=[app, contest, interval_str]` payload (the `app` handle carries
no state we model). -/
structure Job where
  jobId : String
  runDate : Int
  contest : Contest
  intervalStr : String
  deriving Repr, DecidableEq

/-- The scheduler job store: pending jobs in insertion order. -/
abbrev Scheduler := List Job

/-- `scheduler.get_job(job_id)`: lookup by id. -/
def getJob (s : Scheduler) (jid : String) : Option Job :=
  s.find? (fun j => j.jobId == jid)

/-- `scheduler.add_job(...)`: appends a new pending job. -/
def addJob (s : Scheduler) (j : Job) : Scheduler :=
  s ++ [j]

/-- `f"contest_X_reminder_Y"` (src/bot.py line 234). -/
def jobIdFor (contestId : Int) (intervalStr : String) : String :=
  "contest_" ++ toString contestId ++ "_reminder_" ++ intervalStr

/-- Whether a job with the given id is pending. -/
def hasJob (s : Scheduler) (jid : String) : Bool :=
  (getJob s jid).isSome

/-- Body of the inner `for interval_str, delta in REMINDER_INTERVALS.items()`
loop of `manage_and_schedule_reminders` (src/bot.py lines 232-258),
threading the job store and `scheduled_count`. -/
def scheduleInterval (contest : Contest) (now : Int)
    (acc : Scheduler × Nat) (entry : String × Int) : Scheduler × Nat :=
  if contest.startTimeSeconds - entry.2 > now then
    match getJob acc.1 (jobIdFor contest.id entry.1) with
    | some _ => acc
    | none =>
      (addJob acc.1 ⟨jobIdFor contest.id entry.1,
        contest.startTimeSeconds - entry.2, contest, entry.1⟩, acc.2 + 1)
  else acc

/-- Body of the outer `for contest in contests` loop
(src/bot.py lines 223-258): contests already started are skipped. -/
def scheduleContest (now : Int) (acc : Scheduler × Nat) (contest : Contest) :
    Scheduler × Nat :=
  if contest.startTimeSeconds ≤ now then acc
  else REMINDER_INTERVALS.foldl (scheduleInterval contest now) acc

/-- Result of one `manage_and_schedule_reminders` call: the job store
afterwards, the internal `scheduled_count` accumulator, and `ret`, the
value the Python coroutine returns to its caller (`none` models
Python `None`; the function has no `return value` statement). -/
structure ReconcileResult where
  sched : Scheduler
  scheduledCount : Nat
  ret : Option Nat
  deriving Repr, DecidableEq

/-- `manage_and_schedule_reminders` (src/bot.py lines 210-263), with
the fetched contest list and the sampled `now_utc` as inputs.  The
`contests is None` guard is unreachable because
`fetch_upcoming_contests` always returns a list; the empty-list guard
returns before the loop runs. -/
def manage_and_schedule_reminders (contests : List Contest) (now : Int)
    (sched : Scheduler) : ReconcileResult :=
  if contests.isEmpty then ⟨sched, 0, none⟩
  else
    let r := contests.foldl (scheduleContest now) (sched, 0)
    ⟨r.1, r.2, none⟩

/-- Python substring test `needle in hay`. -/
def pyInStr (needle hay : String) : Bool :=
  hay.data.tails.any (fun t => List.isPrefixOf needle.data t)

/-- An apostrophe character, for spelling out the source error phrase. -/
def apos : String := String.singleton (Char.ofNat 39)

/-- The classification of `str(e).lower()` in `send_actual_reminder`
(src/bot.py lines 199-203): the closed set of phrases whose presence
marks the recipient as unreachable. -/
def isUnreachableError (errStr : String) : Bool :=
  pyInStr "bot was blocked" errStr ||
  pyInStr "user is deactivated" errStr ||
  pyInStr "chat not found" errStr ||
  pyInStr "forbidden: bot was kicked" errStr ||
  pyInStr ("forbidden: bot can" ++ apos ++ "t initiate conversation with a user") errStr

/-- Core state touched by delivery and the command handlers: the
in-memory `subscribers` set and the trace of `save_subscribers` calls
(each entry the set as saved, most recent last). -/
structure BotState where
  subscribers : List Int
  saves : List (List Int)
  deriving Repr, DecidableEq

/-- `subscribers.discard(chat_id)` on the list model of a set. -/
def pyDiscard (subs : List Int) (cid : Int) : List Int :=
  subs.filter (fun y => y != cid)

/-- One iteration of the `for chat_id in chat_ids_to_notify` loop of
`send_actual_reminder` (src/bot.py lines 192-207): attempt the send;
on an exception whose lowered text matches an unreachable phrase,
discard the recipient and save immediately; any other exception is
logged and ignored. -/
def sendStep (env : Int → Option String) (st : BotState) (chatId : Int) :
    BotState :=
  match env chatId with
  | none => st
  | some e =>
    if isUnreachableError e.toLower then
      if chatId ∈ st.subscribers then
        ⟨pyDiscard st.subscribers chatId,
         st.saves ++ [pyDiscard st.subscribers chatId]⟩
      else st
    else st

/-- The classification a recipient receives during one delivery pass:
`true` when the transport raises for this chat id and the lowered
message matches an unreachable phrase. -/
def unreachableFor (env : Int → Option String) (chatId : Int) : Bool :=
  match env chatId with
  | some e => isUnreachableError e.toLower
  | none => false

/-- `send_actual_reminder` (src/bot.py lines 171-207): snapshot the
subscribers, return early when the snapshot is empty or the contest
started at or before one minute ago, otherwise attempt delivery to
every snapshot entry.  Returns the final state and the list of chat
ids to which a send was attempted (message rendering carries no state
and is omitted). -/
def send_actual_reminder (env : Int → Option String) (contest : Contest)
    (now : Int) (st : BotState) : BotState × List Int :=
  if st.subscribers.isEmpty then (st, [])
  else if contest.startTimeSeconds ≤ now - 60 then (st, [])
  else (st.subscribers.foldl (sendStep env) st, st.subscribers)

/-- `subscribe_command` (src/bot.py lines 287-296): a fresh chat id is
added and saved and a reconciliation pass runs; an existing one only
gets a reply.  The `Bool` records whether `manage_and_schedule_reminders`
was invoked. -/
def subscribe_command (chatId : Int) (st : BotState) : BotState × Bool :=
  if chatId ∈ st.subscribers then (st, false)
  else
    (⟨st.subscribers ++ [chatId], st.saves ++ [st.subscribers ++ [chatId]]⟩,
     true)

/-- A JSON-representable subscriber identifier: an integer or a
string (the two shapes the spec admits for the store). -/
inductive SubId where
  | intId : Int → SubId
  | strId : String → SubId
  deriving Repr, DecidableEq

/-- JSON documents, the domain shared by `json.dump` and `json.load`.
Array elements and object values are restricted to the identifier
domain the subscriber store ever contains; the list/non-list dispatch
in `load_subscribers` depends only on the top-level shape, so this
restriction is invisible to every operation modelled here. -/
inductive JValue where
  | jnull : JValue
  | jbool : Bool → JValue
  | jnum : Int → JValue
  | jstr : String → JValue
  | jarr : List SubId → JValue
  | jobj : List (String × SubId) → JValue
  deriving Repr, DecidableEq

/-- The persisted subscribers file as `load_subscribers` can find it:
absent, present but not JSON, or a well-formed JSON document. -/
inductive FileState where
  | missing : FileState
  | malformed : String → FileState
  | wellFormed : JValue → FileState
  deriving Repr, DecidableEq

/-- `load_subscribers` (src/bot.py lines 37-56): missing file, decode
error, and non-list top level all yield the empty set; a list yields
`set(data)`.  Total: every error path is caught in the source. -/
def load_subscribers : FileState → List SubId
  | FileState.missing => []
  | FileState.malformed _ => []
  | FileState.wellFormed v =>
    match v with
    | JValue.jarr xs => xs.dedup
    | _ => []

/-- `save_subscribers` at the document level (src/bot.py line 127):
`json.dump(list(subscribers_set), f)` writes the JSON array holding
the members of the set. -/
def save_subscribers (subs : List SubId) : FileState :=
  FileState.wellFormed (JValue.jarr subs)

/-- `json.dump(list_of_ints)` output text: elements via `str`, joined
by comma-space, in brackets (the default separators). -/
def json_dump_intList (subs : List Int) : String :=
  "[" ++ String.intercalate ", " (subs.map toString) ++ "]"

/-- File content after `save_subscribers` (src/bot.py lines 111-140)
stops at a given point.  The function opens the file with mode `w`,
which truncates it, then writes the serialized array and flushes.
`failAfter = 0`: failure at or before the `open` call, old content
intact; `failAfter = k+1`: the `open` succeeded (file truncated) and
the first `k` characters of the new content reached the disk before
the failure; `failAfter ≥ length + 1`: the write completed. -/
def save_subscribers_stoppedAt (old : String) (subs : List Int)
    (failAfter : Nat) : String :=
  match failAfter with
  | 0 => old
  | Nat.succ k => String.mk ((json_dump_intList subs).data.take k)

/-- Concrete fixture: a contest starting 7200 seconds after epoch 0. -/
def contestW : Contest := ⟨123, "Round", 7200, 7200⟩

/-- Concrete fixture: a transport where chat 2 raises an unreachable
error, chat 3 raises an unrelated error, and every other send works. -/
def envW : Int → Option String := fun chatId =>
  if chatId = 2 then some "Forbidden: bot was blocked by the user"
  else if chatId = 3 then some "Timed out" else none

/-- Concrete fixture: three subscribers, no saves yet. -/
def stW : BotState := ⟨[1, 2, 3], []⟩

/-! Theorems.  Helper lemmas come first, then one theorem per claim
(with a closed witness where the claim theorem carries hypotheses). -/

theorem jobIdFor_label_injective {cid : Int} {s t : String}
    (h : jobIdFor cid s = jobIdFor cid t) : s = t := by
  have hd : ("contest_" ++ toString cid ++ "_reminder_").data ++ s.data
      = ("contest_" ++ toString cid ++ "_reminder_").data ++ t.data :=
    congrArg String.data h
  exact String.ext (by simpa using hd)

theorem jobIdFor_label_ne {cid : Int} {s t : String} (h : s ≠ t) :
    (jobIdFor cid s == jobIdFor cid t) = false := by
  rw [beq_eq_false_iff_ne]
  intro he
  exact h (jobIdFor_label_injective he)

theorem hasJob_iff (s : Scheduler) (jid : String) :
    hasJob s jid = true ↔ ∃ j, j ∈ s ∧ j.jobId = jid := by
  simp [hasJob, getJob, List.find?_isSome]

/-- Claim C6: a fired reminder whose contest start is at or before
one minute before the current instant performs zero send attempts and
leaves the state untouched. -/
theorem send_suppresses_started_contest (env : Int → Option String)
    (c : Contest) (now : Int) (st : BotState)
    (h : c.startTimeSeconds ≤ now - 60) :
    send_actual_reminder env c now st = (st, []) := by
  unfold send_actual_reminder
  by_cases he : st.subscribers.isEmpty <;> simp [he, h]

/-- Witness for C6 at a contest whose start is 120 seconds in the
past at fire time. -/
theorem send_suppresses_started_contest_witness :
    (880 : Int) ≤ 1000 - 60
    ∧ send_actual_reminder (fun _ => none) ⟨1, "x", 880, 100⟩ 1000 stW
        = (stW, []) :=
  ⟨by decide, send_suppresses_started_contest (fun _ => none)
    ⟨1, "x", 880, 100⟩ 1000 stW (by decide)⟩

/-- Claim C7: saving any duplicate-free collection of identifiers and
loading it back yields the same collection. -/
theorem subscribers_round_trip (subs : List SubId) (h : subs.Nodup) :
    load_subscribers (save_subscribers subs) = subs := by
  simp only [load_subscribers, save_subscribers]
  exact h.dedup

/-- Witness for C7 on a mixed integer-and-string identifier set. -/
theorem subscribers_round_trip_witness :
    ([SubId.intId 5, SubId.strId "a", SubId.intId (-7)] : List SubId).Nodup
    ∧ load_subscribers
        (save_subscribers [SubId.intId 5, SubId.strId "a", SubId.intId (-7)])
      = [SubId.intId 5, SubId.strId "a", SubId.intId (-7)] :=
  ⟨by decide, subscribers_round_trip
    [SubId.intId 5, SubId.strId "a", SubId.intId (-7)] (by decide)⟩

/-- Claim C10: a well-formed file whose top-level value is not a list
(an object, a number) loads as the empty set without raising, and a
list with duplicate identifiers collapses to a duplicate-free set
with the same members. -/
theorem load_tolerates_wrong_shape :
    (∀ fields, load_subscribers (FileState.wellFormed (JValue.jobj fields)) = [])
    ∧ (∀ n, load_subscribers (FileState.wellFormed (JValue.jnum n)) = [])
    ∧ (∀ xs : List SubId,
        (load_subscribers (FileState.wellFormed (JValue.jarr xs))).Nodup
        ∧ ∀ a, a ∈ load_subscribers (FileState.wellFormed (JValue.jarr xs))
            ↔ a ∈ xs) := by
  refine ⟨fun _ => rfl, fun _ => rfl, fun xs => ⟨?_, fun a => ?_⟩⟩
  · simpa [load_subscribers] using xs.nodup_dedup
  · simp [load_subscribers, List.mem_dedup]

/-- Counterexample for C4: with previous content an array holding 1,
a failure right after the `open` call (which truncates) leaves the
file empty, which is neither the old content nor the new serialized
array. -/
theorem save_partial_torn_counterexample :
    save_subscribers_stoppedAt "[1]" [2] 1 = ""
    ∧ ("" : String) ≠ "[1]"
    ∧ ("" : String) ≠ json_dump_intList [2] := by
  refine ⟨rfl, by decide, by decide⟩

/-- Amended C4: the write-truncate save keeps the old content only
when it fails at or before the `open` call; once the open succeeds
the file holds some character-level front portion of the new JSON
array (possibly empty, possibly complete), and a run that completes
the write leaves exactly the new content. -/
theorem save_write_truncate_behavior (old : String) (subs : List Int)
    (k : Nat) :
    save_subscribers_stoppedAt old subs 0 = old
    ∧ (save_subscribers_stoppedAt old subs k = old
        ∨ (save_subscribers_stoppedAt old subs k).data
            <+: (json_dump_intList subs).data)
    ∧ save_subscribers_stoppedAt old subs
        ((json_dump_intList subs).length + 1) = json_dump_intList subs := by
  refine ⟨rfl, ?_, ?_⟩
  · cases k with
    | zero => exact Or.inl rfl
    | succ k =>
      exact Or.inr (by simpa [save_subscribers_stoppedAt]
        using List.take_prefix k (json_dump_intList subs).data)
  · show String.mk ((json_dump_intList subs).data.take
      (json_dump_intList subs).data.length) = json_dump_intList subs
    rw [List.take_length]

/-- Claim C8: subscribing an already-subscribed chat id changes
nothing (no set mutation, no save, no reconciliation); a fresh chat
id is appended to the set, the new set is saved, and a
reconciliation pass is triggered. -/
theorem subscribe_noop_when_present (chatId : Int) (st : BotState) :
    (chatId ∈ st.subscribers → subscribe_command chatId st = (st, false))
    ∧ (chatId ∉ st.subscribers →
        subscribe_command chatId st
          = (⟨st.subscribers ++ [chatId],
              st.saves ++ [st.subscribers ++ [chatId]]⟩, true)) := by
  constructor
  · intro h
    simp [subscribe_command, h]
  · intro h
    simp [subscribe_command, h]

/-- Witness for C8: chat 5 re-subscribing is a no-op; chat 7
subscribing mutates, saves, and reconciles. -/
theorem subscribe_noop_when_present_witness :
    subscribe_command 5 ⟨[5], []⟩ = (⟨[5], []⟩, false)
    ∧ subscribe_command 7 ⟨[5], []⟩ = (⟨[5, 7], [[5, 7]]⟩, true) :=
  ⟨(subscribe_noop_when_present 5 ⟨[5], []⟩).1 (by decide),
   (subscribe_noop_when_present 7 ⟨[5], []⟩).2 (by decide)⟩

theorem hasJob_scheduleInterval (c : Contest) (now : Int)
    (acc : Scheduler × Nat) (e : String × Int) (jid : String)
    (h : hasJob acc.1 jid = true) :
    hasJob (scheduleInterval c now acc e).1 jid = true := by
  unfold scheduleInterval
  split
  · split
    · exact h
    · rw [hasJob_iff] at h ⊢
      obtain ⟨j, hj, hid⟩ := h
      exact ⟨j, by simp [addJob, hj], hid⟩
  · exact h

theorem hasJob_scheduleInterval_self (c : Contest) (now : Int)
    (acc : Scheduler × Nat) (e : String × Int)
    (ht : c.startTimeSeconds - e.2 > now) :
    hasJob (scheduleInterval c now acc e).1 (jobIdFor c.id e.1) = true := by
  unfold scheduleInterval
  rw [if_pos ht]
  cases hg : getJob acc.1 (jobIdFor c.id e.1) with
  | some j => simp [hasJob, hg]
  | none =>
    rw [hasJob_iff]
    exact ⟨⟨jobIdFor c.id e.1, c.startTimeSeconds - e.2, c, e.1⟩,
      by simp [addJob], rfl⟩

theorem hasJob_foldl_intervals (c : Contest) (now : Int)
    (l : List (String × Int)) (acc : Scheduler × Nat) (jid : String)
    (h : hasJob acc.1 jid = true) :
    hasJob (l.foldl (scheduleInterval c now) acc).1 jid = true := by
  induction l generalizing acc with
  | nil => exact h
  | cons x xs ih => exact ih _ (hasJob_scheduleInterval c now acc x jid h)

theorem hasJob_scheduleContest (now : Int) (acc : Scheduler × Nat)
    (c : Contest) (jid : String) (h : hasJob acc.1 jid = true) :
    hasJob (scheduleContest now acc c).1 jid = true := by
  unfold scheduleContest
  split
  · exact h
  · exact hasJob_foldl_intervals c now REMINDER_INTERVALS acc jid h

theorem hasJob_foldl_contests (now : Int) (l : List Contest)
    (acc : Scheduler × Nat) (jid : String) (h : hasJob acc.1 jid = true) :
    hasJob (l.foldl (scheduleContest now) acc).1 jid = true := by
  induction l generalizing acc with
  | nil => exact h
  | cons x xs ih => exact ih _ (hasJob_scheduleContest now acc x jid h)

theorem coverage_intervals (c : Contest) (now : Int)
    (l : List (String × Int)) (acc : Scheduler × Nat) (e : String × Int)
    (he : e ∈ l) (ht : c.startTimeSeconds - e.2 > now) :
    hasJob (l.foldl (scheduleInterval c now) acc).1 (jobIdFor c.id e.1)
      = true := by
  induction l generalizing acc with
  | nil => cases he
  | cons x xs ih =>
    rcases List.mem_cons.mp he with rfl | hmem
    · exact hasJob_foldl_intervals c now xs _ _
        (hasJob_scheduleInterval_self c now acc e ht)
    · exact ih _ hmem

theorem coverage_contests (now : Int) (l : List Contest)
    (acc : Scheduler × Nat) (c : Contest) (hc : c ∈ l)
    (hs : now < c.startTimeSeconds) (e : String × Int)
    (he : e ∈ REMINDER_INTERVALS) (ht : c.startTimeSeconds - e.2 > now) :
    hasJob (l.foldl (scheduleContest now) acc).1 (jobIdFor c.id e.1)
      = true := by
  induction l generalizing acc with
  | nil => cases hc
  | cons x xs ih =>
    rcases List.mem_cons.mp hc with rfl | hmem
    · refine hasJob_foldl_contests now xs _ _ ?_
      unfold scheduleContest
      rw [if_neg (not_le.mpr hs)]
      exact coverage_intervals c now REMINDER_INTERVALS acc e he ht
    · exact ih _ hmem

theorem noop_intervals (c : Contest) (now : Int) (l : List (String × Int))
    (acc : Scheduler × Nat)
    (h : ∀ e ∈ l, c.startTimeSeconds - e.2 > now →
          hasJob acc.1 (jobIdFor c.id e.1) = true) :
    l.foldl (scheduleInterval c now) acc = acc := by
  induction l with
  | nil => rfl
  | cons x xs ih =>
    have hx : scheduleInterval c now acc x = acc := by
      unfold scheduleInterval
      split
      · rename_i ht
        have := h x (List.mem_cons_self x xs) ht
        rw [hasJob_iff] at this
        obtain ⟨j, hj, hid⟩ := this
        cases hg : getJob acc.1 (jobIdFor c.id x.1) with
        | some _ => rfl
        | none =>
          exfalso
          have : hasJob acc.1 (jobIdFor c.id x.1) = true :=
            (hasJob_iff _ _).mpr ⟨j, hj, hid⟩
          simp [hasJob, hg] at this
      · rfl
    rw [List.foldl_cons, hx]
    exact ih (fun e he hte => h e (List.mem_cons_of_mem x he) hte)

theorem noop_contests (now : Int) (l : List Contest) (acc : Scheduler × Nat)
    (h : ∀ c ∈ l, now < c.startTimeSeconds → ∀ e ∈ REMINDER_INTERVALS,
          c.startTimeSeconds - e.2 > now →
          hasJob acc.1 (jobIdFor c.id e.1) = true) :
    l.foldl (scheduleContest now) acc = acc := by
  induction l with
  | nil => rfl
  | cons x xs ih =>
    have hx : scheduleContest now acc x = acc := by
      unfold scheduleContest
      split
      · rfl
      · rename_i hnle
        exact noop_intervals x now REMINDER_INTERVALS acc
          (fun e he hte => h x (List.mem_cons_self x xs)
            (lt_of_not_le hnle) e he hte)
    rw [List.foldl_cons, hx]
    exact ih (fun c hc => h c (List.mem_cons_of_mem x hc))

/-- Claim C1: reconciliation is idempotent — running
`manage_and_schedule_reminders` a second time with the same contest
list and the same instant creates zero new jobs and leaves the job
store unchanged, because every still-future candidate already has a
pending job under its composite id. -/
theorem reconcile_idempotent (contests : List Contest) (now : Int)
    (s : Scheduler) :
    (manage_and_schedule_reminders contests now
        (manage_and_schedule_reminders contests now s).sched).scheduledCount
      = 0
    ∧ (manage_and_schedule_reminders contests now
        (manage_and_schedule_reminders contests now s).sched).sched
      = (manage_and_schedule_reminders contests now s).sched := by
  by_cases hemp : contests.isEmpty
  · simp [manage_and_schedule_reminders, hemp]
  · have h1 : (manage_and_schedule_reminders contests now s).sched
        = (contests.foldl (scheduleContest now) (s, 0)).1 := by
      simp [manage_and_schedule_reminders, hemp]
    have hcov : ∀ c ∈ contests, now < c.startTimeSeconds →
        ∀ e ∈ REMINDER_INTERVALS, c.startTimeSeconds - e.2 > now →
        hasJob ((manage_and_schedule_reminders contests now s).sched, (0 : Nat)).1
          (jobIdFor c.id e.1) = true := by
      intro c hc hs e he ht
      rw [h1]
      exact coverage_contests now contests (s, 0) c hc hs e he ht
    have hno := noop_contests now contests
      ((manage_and_schedule_reminders contests now s).sched, 0) hcov
    rw [h1] at hno
    constructor
    · simp [manage_and_schedule_reminders, hemp, hno]
    · simp [manage_and_schedule_reminders, hemp, hno]

theorem scheduleInterval_length (c : Contest) (now : Int)
    (acc : Scheduler × Nat) (e : String × Int) :
    (scheduleInterval c now acc e).1.length + acc.2
      = (scheduleInterval c now acc e).2 + acc.1.length := by
  unfold scheduleInterval
  split
  · split
    · omega
    · simp [addJob]
      omega
  · omega

theorem scheduleInterval_sched_extends (c : Contest) (now : Int)
    (acc : Scheduler × Nat) (e : String × Int) :
    acc.1 <+: (scheduleInterval c now acc e).1 := by
  unfold scheduleInterval
  split
  · split
    · exact List.prefix_rfl
    · exact List.prefix_append acc.1 _
  · exact List.prefix_rfl

theorem foldl_intervals_length (c : Contest) (now : Int)
    (l : List (String × Int)) (acc : Scheduler × Nat) :
    (l.foldl (scheduleInterval c now) acc).1.length + acc.2
      = (l.foldl (scheduleInterval c now) acc).2 + acc.1.length := by
  induction l generalizing acc with
  | nil =>
    simp only [List.foldl_nil]
    omega
  | cons x xs ih =>
    have h1 := scheduleInterval_length c now acc x
    have h2 := ih (scheduleInterval c now acc x)
    rw [List.foldl_cons]
    omega

theorem foldl_intervals_sched_extends (c : Contest) (now : Int)
    (l : List (String × Int)) (acc : Scheduler × Nat) :
    acc.1 <+: (l.foldl (scheduleInterval c now) acc).1 := by
  induction l generalizing acc with
  | nil => exact List.prefix_rfl
  | cons x xs ih =>
    exact (scheduleInterval_sched_extends c now acc x).trans
      (ih (scheduleInterval c now acc x))

theorem scheduleContest_length (now : Int) (acc : Scheduler × Nat)
    (c : Contest) :
    (scheduleContest now acc c).1.length + acc.2
      = (scheduleContest now acc c).2 + acc.1.length := by
  unfold scheduleContest
  split
  · omega
  · exact foldl_intervals_length c now REMINDER_INTERVALS acc

theorem scheduleContest_sched_extends (now : Int) (acc : Scheduler × Nat)
    (c : Contest) : acc.1 <+: (scheduleContest now acc c).1 := by
  unfold scheduleContest
  split
  · exact List.prefix_rfl
  · exact foldl_intervals_sched_extends c now REMINDER_INTERVALS acc

theorem foldl_contests_length (now : Int) (l : List Contest)
    (acc : Scheduler × Nat) :
    (l.foldl (scheduleContest now) acc).1.length + acc.2
      = (l.foldl (scheduleContest now) acc).2 + acc.1.length := by
  induction l generalizing acc with
  | nil =>
    simp only [List.foldl_nil]
    omega
  | cons x xs ih =>
    have h1 := scheduleContest_length now acc x
    have h2 := ih (scheduleContest now acc x)
    rw [List.foldl_cons]
    omega

theorem foldl_contests_sched_extends (now : Int) (l : List Contest)
    (acc : Scheduler × Nat) :
    acc.1 <+: (l.foldl (scheduleContest now) acc).1 := by
  induction l generalizing acc with
  | nil => exact List.prefix_rfl
  | cons x xs ih =>
    exact (scheduleContest_sched_extends now acc x).trans
      (ih (scheduleContest now acc x))

/-- Counterexample for C5: on a fresh scheduler with one contest
starting in two hours, the call creates two jobs internally but its
return value is `None`, not that count — the function has no `return`
carrying `scheduled_count`. -/
theorem reconcile_return_counterexample :
    (manage_and_schedule_reminders [contestW] 0 []).scheduledCount = 2
    ∧ (manage_and_schedule_reminders [contestW] 0 []).ret
        ≠ some (manage_and_schedule_reminders [contestW] 0 []).scheduledCount := by
  refine ⟨by decide, by decide⟩

/-- Amended C5: `manage_and_schedule_reminders` returns `None`;
the count of newly created jobs is only kept in the internal
`scheduled_count` accumulator (and logged).  That accumulator does
equal the number of jobs the call appended to the store: the store
only grows by appending, and its growth is exactly the accumulator
(zero when every candidate already exists or its fire instant has
passed). -/
theorem reconcile_count_is_internal (contests : List Contest) (now : Int)
    (s : Scheduler) :
    (manage_and_schedule_reminders contests now s).ret = none
    ∧ s <+: (manage_and_schedule_reminders contests now s).sched
    ∧ (manage_and_schedule_reminders contests now s).sched.length
      = s.length + (manage_and_schedule_reminders contests now s).scheduledCount := by
  by_cases hemp : contests.isEmpty
  · simp [manage_and_schedule_reminders, hemp]
  · have hpre := foldl_contests_sched_extends now contests (s, 0)
    refine ⟨by simp [manage_and_schedule_reminders, hemp], ?_, ?_⟩
    · simpa [manage_and_schedule_reminders, hemp] using hpre
    · have hlen := foldl_contests_length now contests (s, 0)
      simp at hlen
      simp [manage_and_schedule_reminders, hemp]
      omega

theorem manage_single_fresh (c : Contest) (now : Int)
    (h : now < c.startTimeSeconds) :
    manage_and_schedule_reminders [c] now []
      = ⟨(REMINDER_INTERVALS.filter
            (fun e => decide (c.startTimeSeconds - e.2 > now))).map
            (fun e => ⟨jobIdFor c.id e.1, c.startTimeSeconds - e.2, c, e.1⟩),
          (REMINDER_INTERVALS.filter
            (fun e => decide (c.startTimeSeconds - e.2 > now))).length,
          none⟩ := by
  have e1 : (jobIdFor c.id "24h" == jobIdFor c.id "1h") = false :=
    jobIdFor_label_ne (by decide)
  have e2 : (jobIdFor c.id "24h" == jobIdFor c.id "15m") = false :=
    jobIdFor_label_ne (by decide)
  have e3 : (jobIdFor c.id "1h" == jobIdFor c.id "15m") = false :=
    jobIdFor_label_ne (by decide)
  have hns : ¬ (c.startTimeSeconds ≤ now) := not_le.mpr h
  by_cases h24 : now < c.startTimeSeconds - 86400 <;>
  by_cases h1 : now < c.startTimeSeconds - 3600 <;>
  by_cases h15 : now < c.startTimeSeconds - 900 <;>
  simp [manage_and_schedule_reminders, scheduleContest, scheduleInterval,
    REMINDER_INTERVALS, getJob, addJob, List.filter, List.find?,
    hns, h24, h1, h15, e1, e2, e3]

/-- Claim C2: for an event starting strictly after `now`, a fresh
reconcile pass creates exactly one job per catalog entry whose fire
instant is strictly after `now` (with the right id and run date), no
job whose fire instant is at or before `now`, and for a start exactly
two hours out the new jobs are exactly the 1h and 15m ones. -/
theorem reconcile_future_window (c : Contest) (now : Int)
    (h : now < c.startTimeSeconds) :
    (manage_and_schedule_reminders [c] now []).sched
      = (REMINDER_INTERVALS.filter
          (fun e => decide (c.startTimeSeconds - e.2 > now))).map
          (fun e => ⟨jobIdFor c.id e.1, c.startTimeSeconds - e.2, c, e.1⟩)
    ∧ (∀ j ∈ (manage_and_schedule_reminders [c] now []).sched,
        now < j.runDate)
    ∧ (manage_and_schedule_reminders [c] now []).scheduledCount
      = (REMINDER_INTERVALS.filter
          (fun e => decide (c.startTimeSeconds - e.2 > now))).length
    ∧ (c.startTimeSeconds = now + 7200 →
        (manage_and_schedule_reminders [c] now []).scheduledCount = 2
        ∧ (manage_and_schedule_reminders [c] now []).sched.map
            (fun j => j.intervalStr) = ["1h", "15m"]) := by
  rw [manage_single_fresh c now h]
  refine ⟨rfl, ?_, rfl, ?_⟩
  · intro j hj
    simp only [List.mem_map, List.mem_filter] at hj
    obtain ⟨e, ⟨he, hcond⟩, rfl⟩ := hj
    exact of_decide_eq_true hcond
  · intro h72
    have b24 : ¬ (now < c.startTimeSeconds - 86400) := by omega
    have b1 : now < c.startTimeSeconds - 3600 := by omega
    have b15 : now < c.startTimeSeconds - 900 := by omega
    constructor
    · simp [REMINDER_INTERVALS, List.filter, b24, b1, b15]
    · simp [REMINDER_INTERVALS, List.filter, b24, b1, b15]

/-- Witness for C2: contest 7200 seconds out at `now = 0` yields
exactly the two jobs labelled 1h and 15m. -/
theorem reconcile_future_window_witness :
    (0 : Int) < contestW.startTimeSeconds
    ∧ contestW.startTimeSeconds = 0 + 7200
    ∧ ((manage_and_schedule_reminders [contestW] 0 []).scheduledCount = 2
       ∧ (manage_and_schedule_reminders [contestW] 0 []).sched.map
           (fun j => j.intervalStr) = ["1h", "15m"]) :=
  ⟨by decide, by decide,
   (reconcile_future_window contestW 0 (by decide)).2.2.2 (by decide)⟩

theorem sendStep_of_bad_mem {env : Int → Option String} {st : BotState}
    {x : Int} (hb : unreachableFor env x = true)
    (hm : x ∈ st.subscribers) :
    sendStep env st x
      = ⟨st.subscribers.filter (fun y => y != x),
         st.saves ++ [st.subscribers.filter (fun y => y != x)]⟩ := by
  unfold unreachableFor at hb
  unfold sendStep
  cases henv : env x with
  | none => rw [henv] at hb; cases hb
  | some e =>
    rw [henv] at hb
    have hb2 : isUnreachableError e.toLower = true := hb
    simp [hb2, hm, pyDiscard]

theorem sendStep_of_bad_notmem {env : Int → Option String} {st : BotState}
    {x : Int} (hb : unreachableFor env x = true)
    (hm : x ∉ st.subscribers) : sendStep env st x = st := by
  unfold unreachableFor at hb
  unfold sendStep
  cases henv : env x with
  | none => rfl
  | some e =>
    rw [henv] at hb
    have hb2 : isUnreachableError e.toLower = true := hb
    simp [hb2, hm]

theorem sendStep_of_good {env : Int → Option String} {st : BotState}
    {x : Int} (hb : unreachableFor env x = false) :
    sendStep env st x = st := by
  unfold unreachableFor at hb
  unfold sendStep
  cases henv : env x with
  | none => rfl
  | some e =>
    rw [henv] at hb
    have hb2 : isUnreachableError e.toLower = false := hb
    simp [hb2]

theorem sendStep_subscribers (env : Int → Option String) (st : BotState)
    (x : Int) :
    (sendStep env st x).subscribers
      = if unreachableFor env x then
          st.subscribers.filter (fun y => y != x)
        else st.subscribers := by
  by_cases hb : unreachableFor env x = true
  · rw [if_pos hb]
    by_cases hm : x ∈ st.subscribers
    · rw [sendStep_of_bad_mem hb hm]
    · rw [sendStep_of_bad_notmem hb hm]
      refine (List.filter_eq_self.mpr ?_).symm
      intro y hy
      simp only [bne_iff_ne, ne_eq]
      intro hyx
      exact hm (hyx ▸ hy)
  · simp only [Bool.not_eq_true] at hb
    rw [sendStep_of_good hb, if_neg (by simp [hb])]

theorem foldl_sendStep_subscribers (env : Int → Option String)
    (l : List Int) :
    ∀ st : BotState, (l.foldl (sendStep env) st).subscribers
      = st.subscribers.filter
          (fun cid => !(decide (cid ∈ l) && unreachableFor env cid)) := by
  induction l with
  | nil => intro st; simp
  | cons x xs ih =>
    intro st
    rw [List.foldl_cons, ih (sendStep env st x)]
    by_cases hb : unreachableFor env x = true
    · rw [sendStep_subscribers, if_pos hb, List.filter_filter]
      refine List.filter_congr ?_
      intro a _
      by_cases hax : a = x
      · subst hax
        simp [hb]
      · simp [List.mem_cons, hax]
    · simp only [Bool.not_eq_true] at hb
      rw [sendStep_of_good hb]
      refine List.filter_congr ?_
      intro a _
      by_cases hax : a = x
      · subst hax
        simp [hb]
      · simp [List.mem_cons, hax]

theorem foldl_sendStep_saves_length (env : Int → Option String)
    (l : List Int) :
    ∀ st : BotState, l.Nodup → (∀ x ∈ l, x ∈ st.subscribers) →
      (l.foldl (sendStep env) st).saves.length
        = st.saves.length
          + (l.filter (fun cid => unreachableFor env cid)).length := by
  induction l with
  | nil => intro st _ _; simp
  | cons x xs ih =>
    intro st hn hsub
    obtain ⟨hxn, hxs⟩ := List.nodup_cons.mp hn
    rw [List.foldl_cons]
    by_cases hb : unreachableFor env x = true
    · have hm : x ∈ st.subscribers := hsub x (List.mem_cons_self x xs)
      rw [sendStep_of_bad_mem hb hm]
      have ihs := ih ⟨st.subscribers.filter (fun y => y != x),
          st.saves ++ [st.subscribers.filter (fun y => y != x)]⟩ hxs ?_
      · rw [ihs]
        simp [List.filter_cons, hb]
        omega
      · intro y hy
        simp only [List.mem_filter, bne_iff_ne, ne_eq]
        exact ⟨hsub y (List.mem_cons_of_mem x hy),
          fun hyx => hxn (hyx ▸ hy)⟩
    · simp only [Bool.not_eq_true] at hb
      rw [sendStep_of_good hb]
      rw [ih st hxs (fun y hy => hsub y (List.mem_cons_of_mem x hy))]
      simp [List.filter_cons, hb]

theorem sendStep_subset (env : Int → Option String) (st : BotState)
    (x : Int) : (sendStep env st x).subscribers ⊆ st.subscribers := by
  by_cases hb : unreachableFor env x = true
  · by_cases hm : x ∈ st.subscribers
    · rw [sendStep_of_bad_mem hb hm]
      exact List.filter_subset' st.subscribers
    · rw [sendStep_of_bad_notmem hb hm]
      exact fun a h => h
  · simp only [Bool.not_eq_true] at hb
    rw [sendStep_of_good hb]
    exact fun a h => h

theorem foldl_sendStep_subset (env : Int → Option String) (l : List Int) :
    ∀ st : BotState,
      (l.foldl (sendStep env) st).subscribers ⊆ st.subscribers := by
  induction l with
  | nil => intro st; exact fun a h => h
  | cons x xs ih =>
    intro st
    rw [List.foldl_cons]
    exact (ih (sendStep env st x)).trans (sendStep_subset env st x)

/-- Claim C3: during a live delivery pass, every snapshot recipient
gets exactly one send attempt (failures do not abort the loop); a
recipient stays in the set exactly when its send did not raise an
unreachable-classified error, and each unreachable recipient is
removed with one immediate save. -/
theorem send_unreachable_classification (env : Int → Option String)
    (c : Contest) (now : Int) (st : BotState)
    (hne : st.subscribers ≠ []) (hnd : st.subscribers.Nodup)
    (hlive : now - 60 < c.startTimeSeconds) :
    (send_actual_reminder env c now st).2 = st.subscribers
    ∧ (send_actual_reminder env c now st).1.subscribers
      = st.subscribers.filter (fun cid => !(unreachableFor env cid))
    ∧ (send_actual_reminder env c now st).1.saves.length
      = st.saves.length
        + (st.subscribers.filter
            (fun cid => unreachableFor env cid)).length := by
  have hemp : st.subscribers.isEmpty = false := by
    cases hl : st.subscribers with
    | nil => exact absurd hl hne
    | cons a as => rfl
  have hlt : ¬ (c.startTimeSeconds ≤ now - 60) := not_le.mpr hlive
  unfold send_actual_reminder
  rw [if_neg (show ¬ (st.subscribers.isEmpty = true) by simp [hemp]),
    if_neg hlt]
  refine ⟨rfl, ?_, ?_⟩
  · rw [foldl_sendStep_subscribers env st.subscribers st]
    refine List.filter_congr ?_
    intro a ha
    simp [ha]
  · exact foldl_sendStep_saves_length env st.subscribers st hnd
      (fun x hx => hx)

/-- Witness for C3: subscribers 1, 2, 3; chat 2 raises a blocked-bot
error, chat 3 an unrelated error. -/
theorem send_unreachable_classification_witness :
    stW.subscribers ≠ []
    ∧ stW.subscribers.Nodup
    ∧ (0 : Int) - 60 < (⟨1, "x", 10000, 100⟩ : Contest).startTimeSeconds
    ∧ ((send_actual_reminder envW ⟨1, "x", 10000, 100⟩ 0 stW).2
         = stW.subscribers
       ∧ (send_actual_reminder envW ⟨1, "x", 10000, 100⟩ 0 stW).1.subscribers
         = stW.subscribers.filter (fun cid => !(unreachableFor envW cid))
       ∧ (send_actual_reminder envW ⟨1, "x", 10000, 100⟩ 0 stW).1.saves.length
         = stW.saves.length
           + (stW.subscribers.filter
               (fun cid => unreachableFor envW cid)).length) :=
  ⟨by decide, by decide, by decide,
   send_unreachable_classification envW ⟨1, "x", 10000, 100⟩ 0 stW
     (by decide) (by decide) (by decide)⟩

/-- Claim C9: a delivery pass never adds subscribers — the set after
`send_actual_reminder` is contained in the set before it, whatever
the transport does. -/
theorem send_never_grows (env : Int → Option String) (c : Contest)
    (now : Int) (st : BotState) :
    (send_actual_reminder env c now st).1.subscribers ⊆ st.subscribers := by
  unfold send_actual_reminder
  split
  · exact fun a h => h
  · split
    · exact fun a h => h
    · exact foldl_sendStep_subset env st.subscribers st
